import Mathlib

/-!
Verification of the OAuth authorization-code flow in
`workshop-part-one/spotify-hackathon-template/src/auth.rs`.

The Rust code operates on UTF-8 strings; we model them as lists of byte
values (`List Nat`, each element intended `< 256`).  Pure string
manipulation (`urlencoding::encode`, the `url` crate query parsing,
`split_whitespace`) is embedded directly; the network and socket layer is
modelled by passing the responses of the outside world in as explicit
parameters and recording the side effects (browser launch, bind, accept,
write) as an event trace.
-/

namespace SpotifyAuth

/-- UTF-8 bytes of an ASCII string literal (for ASCII, each char is one byte). -/
def bytes (s : String) : List Nat := s.data.map Char.toNat

/-- Characters kept verbatim by `urlencoding::encode`: `A-Z a-z 0-9 - . _ ~`. -/
def isUrlSafe (b : Nat) : Bool :=
  (48 ≤ b && b ≤ 57) || (65 ≤ b && b ≤ 90) || (97 ≤ b && b ≤ 122) ||
  b == 45 || b == 46 || b == 95 || b == 126

/-- Upper-case hex digit of a nibble, as a byte. -/
def hexUpper (n : Nat) : Nat := if n < 10 then 48 + n else 55 + n

/-- `urlencoding::encode`: keep safe bytes, percent-encode the rest as `%XX`. -/
def urlencode : List Nat → List Nat
  | [] => []
  | b :: rest =>
    (if isUrlSafe b then [b] else [37, hexUpper (b / 16), hexUpper (b % 16)])
      ++ urlencode rest

/-- Value of a hex-digit byte (`0-9`, `A-F`, `a-f`), if any. -/
def hexVal (b : Nat) : Option Nat :=
  if 48 ≤ b && b ≤ 57 then some (b - 48)
  else if 65 ≤ b && b ≤ 70 then some (b - 55)
  else if 97 ≤ b && b ≤ 102 then some (b - 87)
  else none

/-- Form-urlencoded decoding as performed by `url::Url::query_pairs`:
`+` becomes a space, `%XX` with valid hex becomes the byte `XX`, an invalid
percent sequence is passed through verbatim. -/
def formDecode : List Nat → List Nat
  | [] => []
  | b :: rest =>
    if b = 43 then 32 :: formDecode rest
    else if b = 37 then
      match rest with
      | h :: l :: rest2 =>
        match hexVal h, hexVal l with
        | some hv, some lv => (16 * hv + lv) :: formDecode rest2
        | _, _ => b :: formDecode (h :: l :: rest2)
      | r => b :: formDecode r
    else b :: formDecode rest

/-- Split a byte list on `&` (byte 38); always returns at least one group. -/
def splitOnAmp : List Nat → List (List Nat)
  | [] => [[]]
  | b :: rest =>
    if b = 38 then [] :: splitOnAmp rest
    else
      match splitOnAmp rest with
      | [] => [[b]]
      | g :: gs => (b :: g) :: gs

/-- Split a byte list at the first `=` (byte 61); a missing `=` gives an
empty value, as in the `form_urlencoded` parser. -/
def splitEq : List Nat → List Nat × List Nat
  | [] => ([], [])
  | b :: rest =>
    if b = 61 then ([], rest)
    else
      let p := splitEq rest
      (b :: p.1, p.2)

/-- The decoded key/value pairs of a query string, in order: split on `&`,
skip empty pieces, split each at the first `=`, form-decode both sides.
This models `url::Url::query_pairs` on the stored query. -/
def queryPairs (q : List Nat) : List (List Nat × List Nat) :=
  (splitOnAmp q).filterMap fun piece =>
    if piece.isEmpty then none
    else some (formDecode (splitEq piece).1, formDecode (splitEq piece).2)

/-- Longest prefix whose bytes all fail `p`, paired with the remainder
(which starts with the first byte satisfying `p`, when one exists). -/
def takeUntil (p : Nat → Bool) : List Nat → List Nat × List Nat
  | [] => ([], [])
  | b :: rest =>
    if p b then ([], b :: rest)
    else
      let q := takeUntil p rest
      (b :: q.1, q.2)

/-- The query component of a URL string: the part after the first `?`,
truncated at the first following `#`. -/
def queryOf (url : List Nat) : List Nat :=
  match (takeUntil (fun b => b == 63) url).2 with
  | [] => []
  | _ :: rest => (takeUntil (fun b => b == 35) rest).1

/-- ASCII whitespace, the fragment of `char::is_whitespace` relevant to
byte-level request lines: space and the control range TAB..CR. -/
def isWS (b : Nat) : Bool := b == 32 || (9 ≤ b && b ≤ 13)

/-- `str::split_whitespace`: the maximal non-whitespace runs, in order. -/
def splitWhitespace : List Nat → List (List Nat)
  | [] => []
  | b :: rest =>
    if isWS b then splitWhitespace rest
    else
      match splitWhitespace rest with
      | [] => [[b]]
      | g :: gs =>
        match rest with
        | [] => [[b]]
        | c :: _ => if isWS c then [b] :: g :: gs else (b :: g) :: gs

/-- The part of a byte list after its last `@` (byte 64); the whole list
when there is no `@`.  The `url` crate takes the host to start after the
last `@` of the authority. -/
def afterLastAt (l : List Nat) : List Nat :=
  (l.reverse.takeWhile (fun b => b ≠ 64)).reverse

/-- Split an authority at its last `:` (byte 58) into host and optional
port digits; no `:` means no port component. -/
def splitLastColon (l : List Nat) : List Nat × Option (List Nat) :=
  if l.contains 58 then
    (((l.reverse.dropWhile (fun b => b ≠ 58)).tail).reverse,
     some (l.reverse.takeWhile (fun b => b ≠ 58)).reverse)
  else (l, none)

/-- ASCII digit. -/
def isDigit (b : Nat) : Bool := 48 ≤ b && b ≤ 57

/-- Numeric value of a digit string. -/
def natOfDigits (l : List Nat) : Nat := l.foldl (fun acc b => acc * 10 + (b - 48)) 0

/-- Bytes the `url` crate forbids in a host component (controls, space,
and the structural URL delimiters). -/
def hostCharOk (b : Nat) : Bool :=
  !(b = 0 || b = 9 || b = 10 || b = 13 || b = 32 || b = 35 || b = 47 ||
    b = 58 || b = 60 || b = 62 || b = 63 || b = 64 || b = 91 || b = 92 ||
    b = 93 || b = 94 || b = 124)

/-- A port component is valid when absent, or all digits with value at
most 65535 (an empty port after `:` is accepted by the `url` crate). -/
def portOk : Option (List Nat) → Bool
  | none => true
  | some p => p.all isDigit && natOfDigits p ≤ 65535

/-- The part of `Url::parse` output that `extract_code` consumes. -/
structure ParsedUrl where
  query : List Nat
deriving DecidableEq

/-- Model of `url::Url::parse` applied to `"http://localhost" ++ tok`, as
`extract_code` builds it.  The authority extends to the first `/`, `?` or
`#`; parsing fails when the host (after the last `@`) is empty or has a
forbidden byte, or the port after the last `:` is not a number below
65536.  On success the parsed URL carries the query: the bytes between
the first `?` after the authority and the next `#`.  (`Url::parse`
percent-encodes a few query bytes on storage, and `query_pairs` decodes
them again; the composition seen by `extract_code` equals decoding the
raw query, which is what `queryPairs` does.) -/
def parseLocalhostUrl (tok : List Nat) : Option ParsedUrl :=
  let authTail := (takeUntil (fun b => b == 47 || b == 63 || b == 35) tok).1
  let rest1 := (takeUntil (fun b => b == 47 || b == 63 || b == 35) tok).2
  let hostPort := afterLastAt (bytes "localhost" ++ authTail)
  let host := (splitLastColon hostPort).1
  let port := (splitLastColon hostPort).2
  if host.isEmpty || !host.all hostCharOk || !portOk port then none
  else
    match (takeUntil (fun b => b == 63 || b == 35) rest1).2 with
    | 63 :: qrest => some ⟨(takeUntil (fun b => b == 35) qrest).1⟩
    | _ => some ⟨[]⟩

/-- `extract_code` from auth.rs: take the second whitespace-separated
token of the request line, parse `"http://localhost" ++ token` as a URL,
and return the decoded value of the first query pair whose decoded key is
`code`. -/
def extract_code (request_line : List Nat) : Option (List Nat) :=
  match (splitWhitespace request_line)[1]? with
  | none => none
  | some tok =>
    match parseLocalhostUrl tok with
    | none => none
    | some u =>
      match (queryPairs u.query).find? (fun p => p.1 == bytes "code") with
      | none => none
      | some p => some p.2

/-- The query string of the authorization URL built by `get_auth_code`:
everything after the `?` in the `format!` template, with `redirect_uri`
and `scope` passed through `urlencoding::encode`. -/
def authUrlQuery (client_id redirect_uri scope : List Nat) : List Nat :=
  bytes "client_id=" ++ client_id ++
  bytes "&response_type=code&redirect_uri=" ++ urlencode redirect_uri ++
  bytes "&scope=" ++ urlencode scope

/-- The authorization URL built by `get_auth_code` (the `format!` call). -/
def authUrl (client_id redirect_uri scope : List Nat) : List Nat :=
  bytes "https://accounts.spotify.com/authorize?" ++
    authUrlQuery client_id redirect_uri scope

/-- The port component encoded in a URI: authority after the scheme
separator `://`, up to the first `/`, `?` or `#`; the digits after the
last `:` following the last `@`.  Used to state what port the spec says
the listener should bind. -/
def afterSchemeSep : List Nat → List Nat
  | 58 :: 47 :: 47 :: rest => rest
  | _ :: rest => afterSchemeSep rest
  | [] => []

def uriPort (uri : List Nat) : Option Nat :=
  let auth := (takeUntil (fun b => b == 47 || b == 63 || b == 35)
    (afterSchemeSep uri)).1
  match (splitLastColon (afterLastAt auth)).2 with
  | some p => if !p.isEmpty && p.all isDigit then some (natOfDigits p) else none
  | none => none

/-- Alphanumeric ASCII byte: the provider-safe client id alphabet the
spec assumes. -/
def isAlphaNum (b : Nat) : Bool :=
  (48 ≤ b && b ≤ 57) || (65 ≤ b && b ≤ 90) || (97 ≤ b && b ≤ 122)

/-- The `AuthResponse` struct of auth.rs (the spec calls it a TokenSet). -/
structure AuthResponse where
  access_token : String
  token_type : String
  expires_in : Nat
  refresh_token : String
deriving DecidableEq

/-- A POST to the token endpoint: URL, HTTP Basic credentials, form body. -/
structure TokenRequest where
  url : String
  user : String
  pass : String
  params : List (String × String)
deriving DecidableEq

/-- What the network returns for a request: the HTTP status and, when the
body deserializes as an `AuthResponse`, that value. -/
structure HttpResponse where
  status : Nat
  body : Option AuthResponse
deriving DecidableEq

/-- `reqwest::StatusCode::is_success`: the 2xx range. -/
def statusIsSuccess (s : Nat) : Bool := 200 ≤ s && s < 300

/-- The one POST issued by `get_spotify_token`. -/
def tokenExchangeRequest (client_id client_secret redirect_uri code : String) :
    TokenRequest :=
  { url := "https://accounts.spotify.com/api/token"
    user := client_id
    pass := client_secret
    params := [("grant_type", "authorization_code"), ("code", code),
               ("redirect_uri", redirect_uri)] }

/-- `get_spotify_token` from auth.rs.  `send` stands for the network: it
maps the request actually issued to the response of the outside world.
The first component lists the requests issued, in order.  On a non-2xx
status the Rust code fails with `format!` on the status; we keep the
status number (the Display form also appends the canonical reason phrase,
a pure function of the number). -/
def get_spotify_token (client_id client_secret redirect_uri code : String)
    (send : TokenRequest → HttpResponse) :
    List TokenRequest × Except String AuthResponse :=
  let req := tokenExchangeRequest client_id client_secret redirect_uri code
  let response := send req
  if statusIsSuccess response.status then
    match response.body with
    | some auth_response => ([req], Except.ok auth_response)
    | none => ([req], Except.error "error decoding response body")
  else
    ([req], Except.error ("Error: " ++ toString response.status))

/-- The one POST issued by `refresh_spotify_token`. -/
def refreshRequest (client_id client_secret refresh_token : String) :
    TokenRequest :=
  { url := "https://accounts.spotify.com/api/token"
    user := client_id
    pass := client_secret
    params := [("grant_type", "refresh_token"),
               ("refresh_token", refresh_token)] }

/-- `refresh_spotify_token` from auth.rs: same shape as the exchange, and
on success, if the refresh token of the response is empty, the old one is
used instead. -/
def refresh_spotify_token (client_id client_secret refresh_token : String)
    (send : TokenRequest → HttpResponse) :
    List TokenRequest × Except String AuthResponse :=
  let req := refreshRequest client_id client_secret refresh_token
  let response := send req
  if statusIsSuccess response.status then
    match response.body with
    | some auth_response =>
      let auth_response :=
        if auth_response.refresh_token.isEmpty then
          { auth_response with refresh_token := refresh_token }
        else auth_response
      ([req], Except.ok auth_response)
    | none => ([req], Except.error "error decoding response body")
  else
    ([req], Except.error ("Error: " ++ toString response.status))

/-- One item of `listener.incoming()`: either an accepted stream whose
request line read may itself fail (`read_line` uses `?`), or an `Err`
from the listener, which the loop merely prints and skips. -/
inductive Conn
  | ok (request_line : Except String (List Nat))
  | err (msg : String)

/-- Observable side effects of `get_auth_code`, in order of occurrence. -/
inductive AuthEvent
  | openBrowser (url : List Nat)
  | bind (host : String) (port : Nat)
  | accept (i : Nat)
  | write (i : Nat) (data : List Nat)
deriving DecidableEq

/-- The fixed success response written back to the browser. -/
def httpOkResponse : List Nat :=
  bytes "HTTP/1.1 200 OK\r\n\r\nAuthorization successful! You can close this window."

/-- The `for stream in listener.incoming()` loop of `get_auth_code`:
accepted connection `i` is read; when `extract_code` finds a code the
fixed response is written to that stream and the code returned; otherwise
the loop moves on to the next connection.  A failed read propagates; a
failed accept is printed and skipped.  The fallback error is only reached
when the stream of connections ends. -/
def acceptLoop : List Conn → Nat → List AuthEvent × Except String (List Nat)
  | [], _ => ([], Except.error "Failed to get authorization code")
  | Conn.ok (Except.error e) :: _, i => ([AuthEvent.accept i], Except.error e)
  | Conn.ok (Except.ok line) :: rest, i =>
    match extract_code line with
    | some code =>
      ([AuthEvent.accept i, AuthEvent.write i httpOkResponse], Except.ok code)
    | none =>
      let t := acceptLoop rest (i + 1)
      (AuthEvent.accept i :: t.1, t.2)
  | Conn.err _ :: rest, i => acceptLoop rest i

/-- `get_auth_code` from auth.rs.  The outside world is passed in:
`browserOpen` is the result of `webbrowser::open` on the URL it is given,
`bindResult` the result of `TcpListener::bind("127.0.0.1:3000")`, and
`conns` the successive items of `listener.incoming()`.  Returns the event
trace and the result.  Note the source order: the URL is built, then the
browser is opened (with `?`), then the port is bound (with `?`), then the
loop runs. -/
def get_auth_code (client_id redirect_uri scope : List Nat)
    (browserOpen : List Nat → Except String Unit)
    (bindResult : Except String Unit)
    (conns : List Conn) : List AuthEvent × Except String (List Nat) :=
  let url := authUrl client_id redirect_uri scope
  match browserOpen url with
  | Except.error e => ([AuthEvent.openBrowser url], Except.error e)
  | Except.ok _ =>
    match bindResult with
    | Except.error e =>
      ([AuthEvent.openBrowser url, AuthEvent.bind "127.0.0.1" 3000],
       Except.error e)
    | Except.ok _ =>
      let t := acceptLoop conns 0
      (AuthEvent.openBrowser url :: AuthEvent.bind "127.0.0.1" 3000 :: t.1,
       t.2)

end SpotifyAuth

namespace SpotifyAuth

example : bytes "A&=" = [65, 38, 61] := by decide

example :
    splitWhitespace (bytes "GET /callback?code=AB HTTP/1.1\r\n") =
      [bytes "GET", bytes "/callback?code=AB", bytes "HTTP/1.1"] := by decide

example :
    extract_code (bytes "GET /callback?code=ABC123 HTTP/1.1\r\n") =
      some (bytes "ABC123") := by decide

example :
    extract_code (bytes "GET /callback?error=access_denied HTTP/1.1\r\n") =
      none := by decide

example : extract_code (bytes "GET") = none := by decide

example : uriPort (bytes "http://localhost:3000/callback") = some 3000 := by decide

/-! ## Helper lemmas -/

/-- The accept loop never produces a bind event. -/
theorem acceptLoop_no_bind (conns : List Conn) : ∀ i h p,
    AuthEvent.bind h p ∉ (acceptLoop conns i).1 := by
  induction conns with
  | nil => intro i h p; simp [acceptLoop]
  | cons c rest ih =>
    intro i h p
    match c with
    | Conn.ok (Except.error e) => simp [acceptLoop]
    | Conn.ok (Except.ok line) =>
      simp only [acceptLoop]
      cases hx : extract_code line with
      | some code => simp
      | none => simp; exact ih (i + 1) h p
    | Conn.err m => simp only [acceptLoop]; exact ih i h p

/-- Running the loop on `n` connections that carry no code accepts all of
them in turn and reaches the end-of-stream fallback; there is no timeout
exit anywhere in the loop. -/
theorem acceptLoop_replicate_denied (n : Nat) : ∀ i,
    acceptLoop
      (List.replicate n
        (Conn.ok (Except.ok (bytes "GET /callback?error=access_denied HTTP/1.1\r\n")))) i =
      ((List.range n).map (fun k => AuthEvent.accept (i + k)),
       Except.error "Failed to get authorization code") := by
  induction n with
  | zero => intro i; simp [acceptLoop]
  | succ n ih =>
    intro i
    rw [List.replicate_succ]
    have hx : extract_code (bytes "GET /callback?error=access_denied HTTP/1.1\r\n")
        = none := by decide
    have hmap : (List.range (n + 1)).map (fun k => AuthEvent.accept (i + k)) =
        AuthEvent.accept i ::
          (List.range n).map (fun k => AuthEvent.accept (i + 1 + k)) := by
      simp only [List.range_succ_eq_map, List.map_cons, List.map_map, Nat.add_zero]
      refine congrArg (fun l => AuthEvent.accept i :: l) (List.map_congr_left ?_)
      intro a _
      simp only [Function.comp]
      exact congrArg AuthEvent.accept (by omega)
    simp only [acceptLoop, hx, ih (i + 1), hmap]

/-! ## Claim theorems -/

/-- C2: for every successful (2xx) refresh response,
`refresh_spotify_token` returns a token set whose refresh token is the
one of the response when that field is non-empty, and the caller-supplied
prior refresh token when that field is empty. -/
theorem refresh_token_carried_forward (client_id client_secret refresh_token : String)
    (send : TokenRequest → HttpResponse) (a : AuthResponse)
    (hst : statusIsSuccess
      (send (refreshRequest client_id client_secret refresh_token)).status = true)
    (hbody : (send (refreshRequest client_id client_secret refresh_token)).body = some a) :
    (refresh_spotify_token client_id client_secret refresh_token send).2 =
      Except.ok { a with refresh_token :=
        if a.refresh_token.isEmpty then refresh_token else a.refresh_token } := by
  simp only [refresh_spotify_token, hst, hbody, if_true]
  split <;> simp_all

/-- Witness for C2: with a prior token `R1` and an empty response field
the result keeps `R1`; with response field `R2` the result is `R2`. -/
theorem refresh_token_carried_forward_witness :
    (statusIsSuccess
      ((fun _ => HttpResponse.mk 200 (some (AuthResponse.mk "AT2" "Bearer" 3600 "")))
        (refreshRequest "cid" "sec" "R1") : HttpResponse).status = true) ∧
    ((refresh_spotify_token "cid" "sec" "R1"
        (fun _ => HttpResponse.mk 200 (some (AuthResponse.mk "AT2" "Bearer" 3600 "")))).2 =
      Except.ok (AuthResponse.mk "AT2" "Bearer" 3600
        (if ("" : String).isEmpty then "R1" else ""))) ∧
    ((refresh_spotify_token "cid" "sec" "R1"
        (fun _ => HttpResponse.mk 200 (some (AuthResponse.mk "AT2" "Bearer" 3600 "R2")))).2 =
      Except.ok (AuthResponse.mk "AT2" "Bearer" 3600
        (if ("R2" : String).isEmpty then "R1" else "R2"))) :=
  ⟨by decide,
   refresh_token_carried_forward "cid" "sec" "R1" _ _ (by decide) rfl,
   refresh_token_carried_forward "cid" "sec" "R1" _ _ (by decide) rfl⟩

/-- C6: on any non-2xx token-endpoint status, `get_spotify_token` fails
with an error carrying the HTTP status, returns no token set, and issues
exactly one POST. -/
theorem exchange_rejected_no_retry (client_id client_secret redirect_uri code : String)
    (send : TokenRequest → HttpResponse)
    (hst : statusIsSuccess
      (send (tokenExchangeRequest client_id client_secret redirect_uri code)).status = false) :
    get_spotify_token client_id client_secret redirect_uri code send =
      ([tokenExchangeRequest client_id client_secret redirect_uri code],
       Except.error ("Error: " ++ toString
         (send (tokenExchangeRequest client_id client_secret redirect_uri code)).status)) := by
  simp [get_spotify_token, hst]

/-- Witness for C6: a mock endpoint answering HTTP 400. -/
theorem exchange_rejected_no_retry_witness :
    (statusIsSuccess
      ((fun _ => HttpResponse.mk 400 none)
        (tokenExchangeRequest "cid" "sec" "uri" "xyz") : HttpResponse).status = false) ∧
    (get_spotify_token "cid" "sec" "uri" "xyz" (fun _ => HttpResponse.mk 400 none) =
      ([tokenExchangeRequest "cid" "sec" "uri" "xyz"],
       Except.error ("Error: " ++ toString (400 : Nat)))) :=
  ⟨by decide, exchange_rejected_no_retry "cid" "sec" "uri" "xyz" _ (by decide)⟩

/-- C3: when the first accepted connection carries `code=ABC123` in its
request line, `get_auth_code` writes exactly the fixed 200 OK response to
that socket and returns `ABC123`; no further connection is touched. -/
theorem code_callback_succeeds (cid r s line : List Nat) (conns : List Conn)
    (browserOpen : List Nat → Except String Unit)
    (hb : browserOpen (authUrl cid r s) = Except.ok ())
    (hline : extract_code line = some (bytes "ABC123")) :
    get_auth_code cid r s browserOpen (Except.ok ())
        (Conn.ok (Except.ok line) :: conns) =
      ([AuthEvent.openBrowser (authUrl cid r s), AuthEvent.bind "127.0.0.1" 3000,
        AuthEvent.accept 0, AuthEvent.write 0 httpOkResponse],
       Except.ok (bytes "ABC123")) := by
  simp [get_auth_code, hb, acceptLoop, hline]

/-- Witness for C3: the simulated callback request line
`GET /callback?code=ABC123 HTTP/1.1`. -/
theorem code_callback_succeeds_witness :
    ((fun _ => Except.ok ()) (authUrl (bytes "cid")
        (bytes "http://localhost:3000/callback") (bytes "scope"))
      = (Except.ok () : Except String Unit)) ∧
    (extract_code (bytes "GET /callback?code=ABC123 HTTP/1.1\r\n") =
      some (bytes "ABC123")) ∧
    (get_auth_code (bytes "cid") (bytes "http://localhost:3000/callback")
        (bytes "scope") (fun _ => Except.ok ()) (Except.ok ())
        [Conn.ok (Except.ok (bytes "GET /callback?code=ABC123 HTTP/1.1\r\n"))] =
      ([AuthEvent.openBrowser (authUrl (bytes "cid")
          (bytes "http://localhost:3000/callback") (bytes "scope")),
        AuthEvent.bind "127.0.0.1" 3000,
        AuthEvent.accept 0, AuthEvent.write 0 httpOkResponse],
       Except.ok (bytes "ABC123"))) :=
  ⟨rfl, by decide,
   code_callback_succeeds (bytes "cid") (bytes "http://localhost:3000/callback")
     (bytes "scope") (bytes "GET /callback?code=ABC123 HTTP/1.1\r\n") []
     (fun _ => Except.ok ()) rfl (by decide)⟩

/-- C1 (the code, not the claim): a first connection whose request line
carries `error=access_denied` and no `code` is silently skipped — the
loop accepts a second connection and returns its code, instead of failing
after one accept. -/
theorem denied_callback_skipped_second_accepted :
    get_auth_code (bytes "cid") (bytes "http://localhost:3000/callback")
        (bytes "scope") (fun _ => Except.ok ()) (Except.ok ())
        [Conn.ok (Except.ok (bytes "GET /callback?error=access_denied HTTP/1.1\r\n")),
         Conn.ok (Except.ok (bytes "GET /callback?code=XYZ HTTP/1.1\r\n"))] =
      ([AuthEvent.openBrowser (authUrl (bytes "cid")
          (bytes "http://localhost:3000/callback") (bytes "scope")),
        AuthEvent.bind "127.0.0.1" 3000,
        AuthEvent.accept 0, AuthEvent.accept 1,
        AuthEvent.write 1 httpOkResponse],
       Except.ok (bytes "XYZ")) := by
  have h0 : extract_code (bytes "GET /callback?error=access_denied HTTP/1.1\r\n")
      = none := by decide
  have h1 : extract_code (bytes "GET /callback?code=XYZ HTTP/1.1\r\n")
      = some (bytes "XYZ") := by decide
  simp [get_auth_code, acceptLoop, h0, h1]

/-- C4 (the code, not the claim): the accept loop has no timeout exit —
however many codeless connections arrive, it keeps accepting, and the
only failure it can ever produce without a code is the end-of-stream
fallback, which a live `TcpListener::incoming` never reaches. -/
theorem accept_wait_unbounded (n : Nat) :
    get_auth_code (bytes "cid") (bytes "http://localhost:3000/callback")
        (bytes "scope") (fun _ => Except.ok ()) (Except.ok ())
        (List.replicate n
          (Conn.ok (Except.ok (bytes "GET /callback?error=access_denied HTTP/1.1\r\n")))) =
      (AuthEvent.openBrowser (authUrl (bytes "cid")
          (bytes "http://localhost:3000/callback") (bytes "scope")) ::
        AuthEvent.bind "127.0.0.1" 3000 ::
        (List.range n).map AuthEvent.accept,
       Except.error "Failed to get authorization code") := by
  have h := acceptLoop_replicate_denied n 0
  simp only [Nat.zero_add] at h
  simp [get_auth_code, h]

/-- C7 counterexample: when the browser launch fails, `get_auth_code`
returns that failure as the error of the whole flow — the listener is
never bound and no callback is awaited, contrary to the claim. -/
theorem browser_failure_aborts_flow_cex :
    (get_auth_code (bytes "cid") (bytes "http://localhost:3000/callback")
        (bytes "scope") (fun _ => Except.error "browser failed") (Except.ok ())
        [Conn.ok (Except.ok (bytes "GET /callback?code=ABC123 HTTP/1.1\r\n"))] =
      ([AuthEvent.openBrowser (authUrl (bytes "cid")
          (bytes "http://localhost:3000/callback") (bytes "scope"))],
       Except.error "browser failed")) ∧
    AuthEvent.bind "127.0.0.1" 3000 ∉
      (get_auth_code (bytes "cid") (bytes "http://localhost:3000/callback")
        (bytes "scope") (fun _ => Except.error "browser failed") (Except.ok ())
        [Conn.ok (Except.ok (bytes "GET /callback?code=ABC123 HTTP/1.1\r\n"))]).1 := by
  constructor
  · rfl
  · intro h
    simp [get_auth_code, authUrl] at h

/-- C7 amended: if launching the browser fails, `get_auth_code`
propagates that failure as the error of the flow and performs no bind,
accept or write at all. -/
theorem browser_failure_propagates (cid r s : List Nat) (e : String)
    (browserOpen : List Nat → Except String Unit)
    (bindResult : Except String Unit) (conns : List Conn)
    (hb : browserOpen (authUrl cid r s) = Except.error e) :
    get_auth_code cid r s browserOpen bindResult conns =
      ([AuthEvent.openBrowser (authUrl cid r s)], Except.error e) := by
  simp [get_auth_code, hb]

/-- Witness for the amended C7. -/
theorem browser_failure_propagates_witness :
    ((fun _ => Except.error "browser failed") (authUrl (bytes "cid")
        (bytes "http://localhost:3000/callback") (bytes "scope"))
      = (Except.error "browser failed" : Except String Unit)) ∧
    (get_auth_code (bytes "cid") (bytes "http://localhost:3000/callback")
        (bytes "scope") (fun _ => Except.error "browser failed")
        (Except.ok ()) [] =
      ([AuthEvent.openBrowser (authUrl (bytes "cid")
          (bytes "http://localhost:3000/callback") (bytes "scope"))],
       Except.error "browser failed")) :=
  ⟨rfl,
   browser_failure_propagates (bytes "cid") (bytes "http://localhost:3000/callback")
     (bytes "scope") "browser failed" (fun _ => Except.error "browser failed")
     (Except.ok ()) [] rfl⟩

/-- C8 counterexample: the bind attempt does not precede the browser
launch — with an unavailable port the flow still opens the browser first
(the `openBrowser` event occurs, before the failing `bind`). -/
theorem browser_opened_before_bind_cex :
    ((get_auth_code (bytes "cid") (bytes "http://localhost:3000/callback")
        (bytes "scope") (fun _ => Except.ok ()) (Except.error "port in use") []).1 =
      [AuthEvent.openBrowser (authUrl (bytes "cid")
          (bytes "http://localhost:3000/callback") (bytes "scope")),
       AuthEvent.bind "127.0.0.1" 3000]) ∧
    AuthEvent.openBrowser (authUrl (bytes "cid")
        (bytes "http://localhost:3000/callback") (bytes "scope")) ∈
      (get_auth_code (bytes "cid") (bytes "http://localhost:3000/callback")
        (bytes "scope") (fun _ => Except.ok ()) (Except.error "port in use") []).1 :=
  ⟨rfl, by rw [(by rfl :
      (get_auth_code (bytes "cid") (bytes "http://localhost:3000/callback")
        (bytes "scope") (fun _ => Except.ok ()) (Except.error "port in use") []).1 =
      [AuthEvent.openBrowser (authUrl (bytes "cid")
          (bytes "http://localhost:3000/callback") (bytes "scope")),
       AuthEvent.bind "127.0.0.1" 3000])]; exact List.mem_cons_self _ _⟩

/-- C8 amended: when the bind fails, `get_auth_code` does fail with the
bind error and accepts no connection, but only after the browser launch:
the `openBrowser` event precedes the `bind` event on every execution. -/
theorem bind_failure_after_browser (cid r s : List Nat) (e : String)
    (browserOpen : List Nat → Except String Unit) (conns : List Conn)
    (hb : browserOpen (authUrl cid r s) = Except.ok ()) :
    get_auth_code cid r s browserOpen (Except.error e) conns =
      ([AuthEvent.openBrowser (authUrl cid r s),
        AuthEvent.bind "127.0.0.1" 3000], Except.error e) := by
  simp [get_auth_code, hb]

/-- Witness for the amended C8. -/
theorem bind_failure_after_browser_witness :
    ((fun _ => Except.ok ()) (authUrl (bytes "cid")
        (bytes "http://localhost:3000/callback") (bytes "scope"))
      = (Except.ok () : Except String Unit)) ∧
    (get_auth_code (bytes "cid") (bytes "http://localhost:3000/callback")
        (bytes "scope") (fun _ => Except.ok ()) (Except.error "port in use") [] =
      ([AuthEvent.openBrowser (authUrl (bytes "cid")
          (bytes "http://localhost:3000/callback") (bytes "scope")),
        AuthEvent.bind "127.0.0.1" 3000], Except.error "port in use")) :=
  ⟨rfl,
   bind_failure_after_browser (bytes "cid") (bytes "http://localhost:3000/callback")
     (bytes "scope") "port in use" (fun _ => Except.ok ()) [] rfl⟩

/-- C9 counterexample: with a redirect URI carrying port 8888 the
listener is still bound to 127.0.0.1:3000 — the bound port is not the
port component of the redirect URI. -/
theorem bind_port_ignores_redirect_uri_cex :
    (uriPort (bytes "http://localhost:8888/callback") = some 8888) ∧
    ((get_auth_code (bytes "cid") (bytes "http://localhost:8888/callback")
        (bytes "scope") (fun _ => Except.ok ()) (Except.ok ()) []).1 =
      [AuthEvent.openBrowser (authUrl (bytes "cid")
          (bytes "http://localhost:8888/callback") (bytes "scope")),
       AuthEvent.bind "127.0.0.1" 3000]) ∧
    (3000 : Nat) ≠ 8888 :=
  ⟨by decide, rfl, by decide⟩

/-- C9 amended: the bound address is the constant 127.0.0.1:3000,
independent of the redirect URI — every bind event in every execution
carries host 127.0.0.1 and port 3000, so the bound port agrees with the
redirect URI only when the latter encodes port 3000. -/
theorem bind_always_port_3000 (cid r s : List Nat)
    (browserOpen : List Nat → Except String Unit)
    (bindResult : Except String Unit) (conns : List Conn) (h : String) (p : Nat)
    (hmem : AuthEvent.bind h p ∈
      (get_auth_code cid r s browserOpen bindResult conns).1) :
    h = "127.0.0.1" ∧ p = 3000 := by
  simp only [get_auth_code] at hmem
  cases hbo : browserOpen (authUrl cid r s) with
  | error e => rw [hbo] at hmem; simp at hmem
  | ok u =>
    rw [hbo] at hmem
    cases bindResult with
    | error e =>
      simp at hmem
      exact hmem
    | ok v =>
      simp at hmem
      rcases hmem with ⟨hh, hp⟩ | hrest
      · exact ⟨hh, hp⟩
      · exact absurd hrest (acceptLoop_no_bind conns 0 h p)

/-- C10: `extract_code` is total over arbitrary request lines (it is a
Lean function, so it cannot panic), returns `none` when the line has
fewer than two whitespace tokens, when the path does not parse as a URL,
or when the query has no `code` key; and a `some` result is exactly the
decoded value of the first query pair whose key is `code`. -/
theorem extract_code_cases (l : List Nat) :
    ((splitWhitespace l).length < 2 → extract_code l = none) ∧
    (∀ tok, (splitWhitespace l)[1]? = some tok → parseLocalhostUrl tok = none →
      extract_code l = none) ∧
    (∀ tok u, (splitWhitespace l)[1]? = some tok → parseLocalhostUrl tok = some u →
      (queryPairs u.query).find? (fun p => p.1 == bytes "code") = none →
      extract_code l = none) ∧
    (∀ v, extract_code l = some v → ∃ tok u k,
      (splitWhitespace l)[1]? = some tok ∧ parseLocalhostUrl tok = some u ∧
      (queryPairs u.query).find? (fun p => p.1 == bytes "code") = some (k, v)) := by
  refine ⟨?_, ?_, ?_, ?_⟩
  · intro hlen
    have hnone : (splitWhitespace l)[1]? = none := by
      rw [List.getElem?_eq_none_iff]; omega
    simp [extract_code, hnone]
  · intro tok h1 h2
    simp [extract_code, h1, h2]
  · intro tok u h1 h2 h3
    simp [extract_code, h1, h2, h3]
  · intro v hv
    unfold extract_code at hv
    cases h1 : (splitWhitespace l)[1]? with
    | none => rw [h1] at hv; simp at hv
    | some tok =>
      rw [h1] at hv
      dsimp only at hv
      cases h2 : parseLocalhostUrl tok with
      | none => rw [h2] at hv; simp at hv
      | some u =>
        rw [h2] at hv
        dsimp only at hv
        cases h3 : (queryPairs u.query).find? (fun p => p.1 == bytes "code") with
        | none => rw [h3] at hv; simp at hv
        | some pr =>
          rw [h3] at hv
          simp at hv
          exact ⟨tok, u, pr.1, rfl, h2, by rw [h3, ← hv]⟩

/-- Witness for C10: a one-token line yields `none`; a line with
`?x=1&code=OK` yields the first (and only) `code` pair. -/
theorem extract_code_cases_witness :
    ((splitWhitespace (bytes "GET")).length < 2 ∧
      extract_code (bytes "GET") = none) ∧
    (extract_code (bytes "GET /cb?x=1&code=OK HTTP/1.1") = some (bytes "OK") ∧
      ∃ tok u k,
        (splitWhitespace (bytes "GET /cb?x=1&code=OK HTTP/1.1"))[1]? = some tok ∧
        parseLocalhostUrl tok = some u ∧
        (queryPairs u.query).find? (fun p => p.1 == bytes "code") =
          some (k, bytes "OK")) :=
  ⟨⟨by decide, (extract_code_cases (bytes "GET")).1 (by decide)⟩,
   ⟨by decide,
    (extract_code_cases (bytes "GET /cb?x=1&code=OK HTTP/1.1")).2.2.2
      (bytes "OK") (by decide)⟩⟩

/-- Witness for the amended C9. -/
theorem bind_always_port_3000_witness :
    (AuthEvent.bind "127.0.0.1" 3000 ∈
      (get_auth_code (bytes "cid") (bytes "http://localhost:8888/callback")
        (bytes "scope") (fun _ => Except.ok ()) (Except.ok ()) []).1) ∧
    ("127.0.0.1" = "127.0.0.1" ∧ (3000 : Nat) = 3000) :=
  ⟨by decide,
   bind_always_port_3000 (bytes "cid") (bytes "http://localhost:8888/callback")
     (bytes "scope") (fun _ => Except.ok ()) (Except.ok ()) [] "127.0.0.1" 3000
     (by decide)⟩

example : formDecode (urlencode (bytes "a b/c")) = bytes "a b/c" := by decide

example :
    queryPairs (bytes "code=AB%20C&error=x") =
      [(bytes "code", bytes "AB C"), (bytes "error", bytes "x")] := by decide

example : queryOf (bytes "http://x/y?a=b#f") = bytes "a=b" := by decide

/-! ## Round-trip of the authorization URL (C5) -/

/-- Decoding a hex-encoded nibble recovers it. -/
theorem hexVal_hexUpper : ∀ n < 16, hexVal (hexUpper n) = some n := by decide

/-- A safe byte is none of the bytes with special meaning to the decoder
or the query syntax. -/
theorem isUrlSafe_spec (b : Nat) (h : isUrlSafe b = true) :
    b ≠ 43 ∧ b ≠ 37 ∧ b ≠ 38 ∧ b ≠ 61 ∧ b ≠ 35 ∧ b ≠ 63 := by
  simp [isUrlSafe] at h
  omega

/-- Hex digits are none of the query delimiters either. -/
theorem hexUpper_ne_delim (n : Nat) :
    hexUpper n ≠ 43 ∧ hexUpper n ≠ 37 ∧ hexUpper n ≠ 38 ∧ hexUpper n ≠ 61 ∧
    hexUpper n ≠ 35 ∧ hexUpper n ≠ 63 := by
  simp only [hexUpper]
  split <;> omega

/-- Percent-encoded output never contains a query delimiter. -/
theorem urlencode_ne_delim (l : List Nat) :
    ∀ b ∈ urlencode l, b ≠ 38 ∧ b ≠ 61 ∧ b ≠ 35 ∧ b ≠ 63 := by
  induction l with
  | nil => simp [urlencode]
  | cons a rest ih =>
    intro b hb
    simp only [urlencode, List.mem_append] at hb
    rcases hb with hb | hb
    · by_cases hs : isUrlSafe a
      · rw [if_pos hs] at hb
        simp at hb
        subst hb
        obtain ⟨-, -, h38, h61, h35, h63⟩ := isUrlSafe_spec _ hs
        exact ⟨h38, h61, h35, h63⟩
      · rw [if_neg hs] at hb
        simp at hb
        rcases hb with hb | hb | hb
        · subst hb; refine ⟨by decide, by decide, by decide, by decide⟩
        · subst hb
          obtain ⟨-, -, h38, h61, h35, h63⟩ := hexUpper_ne_delim (a / 16)
          exact ⟨h38, h61, h35, h63⟩
        · subst hb
          obtain ⟨-, -, h38, h61, h35, h63⟩ := hexUpper_ne_delim (a % 16)
          exact ⟨h38, h61, h35, h63⟩
    · exact ih b hb

/-- The decoder passes a byte that is neither `+` nor `%` through. -/
theorem formDecode_cons_safe (b : Nat) (l : List Nat)
    (h43 : b ≠ 43) (h37 : b ≠ 37) :
    formDecode (b :: l) = b :: formDecode l := by
  match l with
  | [] => simp [formDecode, h43, h37]
  | [x] => simp [formDecode, h43, h37]
  | x :: y :: r => simp [formDecode, h43, h37]

/-- The decoder turns a valid percent sequence back into its byte. -/
theorem formDecode_percent (h l : Nat) (rest : List Nat) (hv lv : Nat)
    (hh : hexVal h = some hv) (hl : hexVal l = some lv) :
    formDecode (37 :: h :: l :: rest) = (16 * hv + lv) :: formDecode rest := by
  simp [formDecode, hh, hl]

/-- Form-decoding inverts percent-encoding on byte input. -/
theorem formDecode_urlencode (l : List Nat) (h : ∀ b ∈ l, b < 256) :
    formDecode (urlencode l) = l := by
  induction l with
  | nil => rfl
  | cons a rest ih =>
    have ha : a < 256 := h a (List.mem_cons_self a rest)
    have hrest : ∀ b ∈ rest, b < 256 := fun b hb => h b (List.mem_cons_of_mem a hb)
    by_cases hs : isUrlSafe a
    · obtain ⟨h43, h37, -, -, -, -⟩ := isUrlSafe_spec _ hs
      simp only [urlencode, if_pos hs, List.singleton_append]
      rw [formDecode_cons_safe a _ h43 h37, ih hrest]
    · simp only [urlencode, if_neg hs, List.cons_append, List.nil_append]
      rw [formDecode_percent _ _ _ _ _
        (hexVal_hexUpper (a / 16) (by omega)) (hexVal_hexUpper (a % 16) (by omega)),
        ih hrest]
      congr 1
      omega

/-- `takeUntil` stops exactly at an explicit separator. -/
theorem takeUntil_append (p : Nat → Bool) (a : List Nat) (c : Nat)
    (rest : List Nat) (ha : ∀ b ∈ a, p b = false) (hc : p c = true) :
    takeUntil p (a ++ c :: rest) = (a, c :: rest) := by
  induction a with
  | nil => simp [takeUntil, hc]
  | cons x a ih =>
    have hx : p x = false := ha x (by simp)
    simp only [List.cons_append, takeUntil, hx, Bool.false_eq_true, if_false, List.append_eq]
    rw [ih (fun b hb => ha b (by simp [hb]))]

/-- `takeUntil` passes a separator-free list through whole. -/
theorem takeUntil_all (p : Nat → Bool) (a : List Nat)
    (ha : ∀ b ∈ a, p b = false) :
    takeUntil p a = (a, []) := by
  induction a with
  | nil => rfl
  | cons x a ih =>
    have hx : p x = false := ha x (by simp)
    simp only [takeUntil, hx, Bool.false_eq_true, if_false]
    rw [ih (fun b hb => ha b (by simp [hb]))]

/-- Splitting on `&` around an explicit separator. -/
theorem splitOnAmp_append (a rest : List Nat) (h : ∀ b ∈ a, b ≠ 38) :
    splitOnAmp (a ++ 38 :: rest) = a :: splitOnAmp rest := by
  induction a with
  | nil => simp [splitOnAmp]
  | cons x a ih =>
    have hx : x ≠ 38 := h x (by simp)
    simp only [List.cons_append, splitOnAmp, if_neg hx, List.append_eq]
    rw [ih (fun b hb => h b (by simp [hb]))]

/-- A `&`-free list is a single group. -/
theorem splitOnAmp_no_amp (a : List Nat) (h : ∀ b ∈ a, b ≠ 38) :
    splitOnAmp a = [a] := by
  induction a with
  | nil => rfl
  | cons x a ih =>
    have hx : x ≠ 38 := h x (by simp)
    simp only [splitOnAmp, if_neg hx, List.append_eq]
    rw [ih (fun b hb => h b (by simp [hb]))]

/-- Splitting a piece at its explicit first `=`. -/
theorem splitEq_append (k v : List Nat) (h : ∀ b ∈ k, b ≠ 61) :
    splitEq (k ++ 61 :: v) = (k, v) := by
  induction k with
  | nil => simp [splitEq]
  | cons x k ih =>
    have hx : x ≠ 61 := h x (by simp)
    simp only [List.cons_append, splitEq, if_neg hx, List.append_eq]
    rw [ih (fun b hb => h b (by simp [hb]))]

/-- A piece of the form `key ++ = :: value` is never empty. -/
theorem isEmpty_append_cons (x : List Nat) (a : Nat) (y : List Nat) :
    (x ++ a :: y).isEmpty = false := by
  cases x <;> rfl

/-- Membership in the authorization query splits over its six segments. -/
theorem mem_authUrlQuery (cid r s : List Nat) (b : Nat)
    (hb : b ∈ authUrlQuery cid r s) :
    b ∈ bytes "client_id=" ∨ b ∈ cid ∨
    b ∈ bytes "&response_type=code&redirect_uri=" ∨ b ∈ urlencode r ∨
    b ∈ bytes "&scope=" ∨ b ∈ urlencode s := by
  simp only [authUrlQuery, List.mem_append] at hb
  tauto

/-- The query component of the built authorization URL is exactly the
query it was assembled from. -/
theorem queryOf_authUrl (cid r s : List Nat)
    (hc : ∀ b ∈ cid, isAlphaNum b = true) :
    queryOf (authUrl cid r s) = authUrlQuery cid r s := by
  have hsplit : authUrl cid r s =
      bytes "https://accounts.spotify.com/authorize" ++ 63 ::
        authUrlQuery cid r s := by
    have e : bytes "https://accounts.spotify.com/authorize?" =
        bytes "https://accounts.spotify.com/authorize" ++ [63] := by decide
    simp [authUrl, e]
  have hpre : ∀ b ∈ bytes "https://accounts.spotify.com/authorize",
      (fun b => b == (63 : Nat)) b = false := by decide
  have h35 : ∀ b ∈ authUrlQuery cid r s, (fun b => b == (35 : Nat)) b = false := by
    intro b hb
    have hb35 : b ≠ 35 := by
      rcases mem_authUrlQuery cid r s b hb with hb | hb | hb | hb | hb | hb
      · exact (by decide : ∀ x ∈ bytes "client_id=", x ≠ 35) b hb
      · have := hc b hb; simp [isAlphaNum] at this; omega
      · exact (by decide :
          ∀ x ∈ bytes "&response_type=code&redirect_uri=", x ≠ 35) b hb
      · exact (urlencode_ne_delim r b hb).2.2.1
      · exact (by decide : ∀ x ∈ bytes "&scope=", x ≠ 35) b hb
      · exact (urlencode_ne_delim s b hb).2.2.1
    simp [hb35]
  rw [queryOf, hsplit, takeUntil_append _ _ _ _ hpre (by decide)]
  simp only
  rw [takeUntil_all _ _ h35]

/-- Splitting the authorization query on `&` yields the four
`key ++ = :: value` pieces. -/
theorem splitOnAmp_authUrlQuery (cid r s : List Nat)
    (hc : ∀ b ∈ cid, isAlphaNum b = true) :
    splitOnAmp (authUrlQuery cid r s) =
      [bytes "client_id" ++ 61 :: cid,
       bytes "response_type" ++ 61 :: bytes "code",
       bytes "redirect_uri" ++ 61 :: urlencode r,
       bytes "scope" ++ 61 :: urlencode s] := by
  have hshape : authUrlQuery cid r s =
      (bytes "client_id" ++ 61 :: cid) ++ 38 ::
        ((bytes "response_type" ++ 61 :: bytes "code") ++ 38 ::
          ((bytes "redirect_uri" ++ 61 :: urlencode r) ++ 38 ::
            (bytes "scope" ++ 61 :: urlencode s))) := by
    have e0 : bytes "client_id=" = bytes "client_id" ++ [61] := by decide
    have e1 : bytes "&response_type=code&redirect_uri=" =
        38 :: (bytes "response_type" ++ 61 :: bytes "code" ++ 38 ::
          (bytes "redirect_uri" ++ [61])) := by decide
    have e2 : bytes "&scope=" = 38 :: (bytes "scope" ++ [61]) := by decide
    simp [authUrlQuery, e0, e1, e2, List.append_assoc]
  have hcid : ∀ b ∈ cid, b ≠ 38 := by
    intro b hb
    have := hc b hb; simp [isAlphaNum] at this; omega
  have h1 : ∀ b ∈ bytes "client_id" ++ 61 :: cid, b ≠ 38 := by
    intro b hb
    rcases List.mem_append.1 hb with hb | hb
    · exact (by decide : ∀ x ∈ bytes "client_id", x ≠ 38) b hb
    · rcases List.mem_cons.1 hb with hb | hb
      · omega
      · exact hcid b hb
  have h2 : ∀ b ∈ bytes "response_type" ++ 61 :: bytes "code", b ≠ 38 := by decide
  have h3 : ∀ b ∈ bytes "redirect_uri" ++ 61 :: urlencode r, b ≠ 38 := by
    intro b hb
    rcases List.mem_append.1 hb with hb | hb
    · exact (by decide : ∀ x ∈ bytes "redirect_uri", x ≠ 38) b hb
    · rcases List.mem_cons.1 hb with hb | hb
      · omega
      · exact (urlencode_ne_delim r b hb).1
  have h4 : ∀ b ∈ bytes "scope" ++ 61 :: urlencode s, b ≠ 38 := by
    intro b hb
    rcases List.mem_append.1 hb with hb | hb
    · exact (by decide : ∀ x ∈ bytes "scope", x ≠ 38) b hb
    · rcases List.mem_cons.1 hb with hb | hb
      · omega
      · exact (urlencode_ne_delim s b hb).1
  rw [hshape, splitOnAmp_append _ _ h1, splitOnAmp_append _ _ h2,
    splitOnAmp_append _ _ h3, splitOnAmp_no_amp _ h4]

/-- The decoded pairs of the built URL: keys verbatim, `redirect_uri` and
`scope` values decoded back to the originals. -/
theorem queryPairs_authUrl (cid r s : List Nat)
    (hc : ∀ b ∈ cid, isAlphaNum b = true)
    (hr : ∀ b ∈ r, b < 256) (hs : ∀ b ∈ s, b < 256) :
    queryPairs (queryOf (authUrl cid r s)) =
      [(bytes "client_id", formDecode cid),
       (bytes "response_type", bytes "code"),
       (bytes "redirect_uri", r),
       (bytes "scope", s)] := by
  have e1 : splitEq (bytes "client_id" ++ 61 :: cid) = (bytes "client_id", cid) :=
    splitEq_append _ _ (by decide)
  have e2 : splitEq (bytes "response_type" ++ 61 :: bytes "code") =
      (bytes "response_type", bytes "code") :=
    splitEq_append _ _ (by decide)
  have e3 : splitEq (bytes "redirect_uri" ++ 61 :: urlencode r) =
      (bytes "redirect_uri", urlencode r) :=
    splitEq_append _ _ (by decide)
  have e4 : splitEq (bytes "scope" ++ 61 :: urlencode s) =
      (bytes "scope", urlencode s) :=
    splitEq_append _ _ (by decide)
  have f1 : formDecode (bytes "client_id") = bytes "client_id" := by decide
  have f2 : formDecode (bytes "response_type") = bytes "response_type" := by decide
  have f2v : formDecode (bytes "code") = bytes "code" := by decide
  have f3 : formDecode (bytes "redirect_uri") = bytes "redirect_uri" := by decide
  have f4 : formDecode (bytes "scope") = bytes "scope" := by decide
  rw [queryOf_authUrl cid r s hc]
  simp only [queryPairs, splitOnAmp_authUrlQuery cid r s hc,
    List.filterMap_cons, List.filterMap_nil, isEmpty_append_cons,
    Bool.false_eq_true, if_false, e1, e2, e3, e4, f1, f2, f2v, f3, f4,
    formDecode_urlencode r hr, formDecode_urlencode s hs]

/-- C5: the authorization URL built by `get_auth_code` round-trips — for
an alphanumeric client id and arbitrary byte strings, parsing the query
of the built URL and percent-decoding the `redirect_uri` and `scope`
parameters recovers exactly the original values. -/
theorem authUrl_roundtrip (cid r s : List Nat)
    (hc : ∀ b ∈ cid, isAlphaNum b = true)
    (hr : ∀ b ∈ r, b < 256) (hs : ∀ b ∈ s, b < 256) :
    (queryPairs (queryOf (authUrl cid r s))).find?
        (fun p => p.1 == bytes "redirect_uri") = some (bytes "redirect_uri", r) ∧
    (queryPairs (queryOf (authUrl cid r s))).find?
        (fun p => p.1 == bytes "scope") = some (bytes "scope", s) := by
  have b1 : (bytes "client_id" == bytes "redirect_uri") = false := by decide
  have b2 : (bytes "response_type" == bytes "redirect_uri") = false := by decide
  have b3 : (bytes "redirect_uri" == bytes "redirect_uri") = true := by decide
  have c1 : (bytes "client_id" == bytes "scope") = false := by decide
  have c2 : (bytes "response_type" == bytes "scope") = false := by decide
  have c3 : (bytes "redirect_uri" == bytes "scope") = false := by decide
  have c4 : (bytes "scope" == bytes "scope") = true := by decide
  rw [queryPairs_authUrl cid r s hc hr hs]
  constructor
  · simp [List.find?, b1, b2, b3]
  · simp [List.find?, c1, c2, c3, c4]

/-- Witness for C5: a concrete client id, loopback redirect URI and
two-scope string. -/
theorem authUrl_roundtrip_witness :
    (∀ b ∈ bytes "abc123", isAlphaNum b = true) ∧
    (∀ b ∈ bytes "http://localhost:3000/callback", b < 256) ∧
    (∀ b ∈ bytes "user-read-private user-top-read", b < 256) ∧
    ((queryPairs (queryOf (authUrl (bytes "abc123")
        (bytes "http://localhost:3000/callback")
        (bytes "user-read-private user-top-read")))).find?
          (fun p => p.1 == bytes "redirect_uri") =
        some (bytes "redirect_uri", bytes "http://localhost:3000/callback") ∧
     (queryPairs (queryOf (authUrl (bytes "abc123")
        (bytes "http://localhost:3000/callback")
        (bytes "user-read-private user-top-read")))).find?
          (fun p => p.1 == bytes "scope") =
        some (bytes "scope", bytes "user-read-private user-top-read")) :=
  ⟨by decide, by decide, by decide,
   authUrl_roundtrip (bytes "abc123") (bytes "http://localhost:3000/callback")
     (bytes "user-read-private user-top-read") (by decide) (by decide) (by decide)⟩

end SpotifyAuth
